import Mathlib

/-!
Verification of the C_django repository: a job-application tracker
(applicants, jobs, applications) and a sales-analytics tracker
(customers, products, orders, order items, analytics reports).

The definitions below are a shallow embedding of the Python/Django source:
database tables become lists of records, querysets become list filters,
Django ORM aggregates (Sum, Count, Coalesce) become explicit folds with an
Option layer for SQL NULL, and serializer validation becomes functions
returning Except.  Prices are a 2-decimal-place DecimalField; every
operation the code performs on them (sum, multiplication by an integer
quantity, comparison) is exactly represented on the integer count of
hundredths, so money is embedded as Int; datetimes as integers;
character-level string operations model the ASCII fragment.
-/

namespace CDjango

/-! ## Data model (from applicants/models.py, jobs/models.py,
applications/models.py, customers/models.py, products/models.py,
orders/models.py) -/

/-- Applicant row: id, name, unique email, optional phone
(resume and timestamp omitted: no claim mentions them). -/
structure Applicant where
  id : Nat
  name : String
  email : String
  phone : Option String
  deriving Repr, DecidableEq

/-- Job row: id plus title (description/posted timestamp omitted). -/
structure Job where
  id : Nat
  title : String
  deriving Repr, DecidableEq

/-- Application row: foreign keys to applicant and job, plus status. -/
structure Application where
  applicant : Nat
  job : Nat
  status : String
  deriving Repr, DecidableEq

/-- Customer row (sales domain). -/
structure Customer where
  id : Nat
  name : String
  email : String
  deriving Repr, DecidableEq

/-- Product row: price is a 2-decimal-place DecimalField, embedded
exactly as an integer count of hundredths. -/
structure Product where
  id : Nat
  name : String
  price : Int
  deriving Repr, DecidableEq

/-- OrderItem row: foreign key to a product and an integer quantity. -/
structure OrderItem where
  product : Nat
  quantity : Int
  deriving Repr, DecidableEq

/-- Order row: foreign key to a customer, a timestamp, and its owned
items (the reverse foreign key `items` of orders/models.py). -/
structure Order where
  id : Nat
  customer : Nat
  order_date : Int
  items : List OrderItem
  deriving Repr, DecidableEq

/-! ## Application creation (applications/serializers.py) -/

/-- Application.objects.filter(applicant=a, job=j).exists() . -/
def applicationExists (apps : List Application) (a j : Nat) : Bool :=
  apps.any fun x => x.applicant == a && x.job == j

/-- Duplicate message raised by ApplicationSerializer.validate. -/
def dupMsgDirect : String :=
  "This applicant has already applied for this job. Duplicate applications are not allowed."

/-- ApplicationSerializer.validate followed by the ORM insert: on a fresh
instance, reject when an application for the same (applicant, job) pair
already exists, otherwise append the new row. -/
def createApplication (apps : List Application) (a j : Nat) (st : String) :
    Except String (List Application) :=
  if applicationExists apps a j then .error dupMsgDirect
  else .ok (apps ++ [⟨a, j, st⟩])

/-- Applicant.objects.get(id=aid) existence test. -/
def applicantIdExists (applicants : List Applicant) (aid : Nat) : Bool :=
  applicants.any fun x => x.id == aid

/-- Job.objects.get(id=jid) existence test. -/
def jobIdExists (jobs : List Job) (jid : Nat) : Bool :=
  jobs.any fun x => x.id == jid

/-- ApplySerializer (validate_applicant_id, validate_job_id, validate,
create): check both ids exist, reject duplicates, then create the
application with default status "applied". -/
def applyForJob (applicants : List Applicant) (jobs : List Job)
    (apps : List Application) (aid jid : Nat) : Except String (List Application) :=
  if applicantIdExists applicants aid = false then
    .error ("Applicant with ID " ++ toString aid ++ " does not exist.")
  else if jobIdExists jobs jid = false then
    .error ("Job with ID " ++ toString jid ++ " does not exist.")
  else
    let aname := (((applicants.find? fun x => x.id == aid).map fun x => x.name).getD "")
    let jtitle := (((jobs.find? fun x => x.id == jid).map fun x => x.title).getD "")
    if applicationExists apps aid jid then
      .error (aname ++ " has already applied for " ++ jtitle ++
        ". Duplicate applications are not allowed.")
    else .ok (apps ++ [⟨aid, jid, "applied"⟩])

/-- Observable state transition of the direct-create endpoint: a
validation error leaves the stored table unchanged. -/
def createApplicationStep (apps : List Application) (a j : Nat) (st : String) :
    List Application :=
  match createApplication apps a j st with
  | .ok l => l
  | .error _ => apps

/-- Observable state transition of the apply-for-job endpoint. -/
def applyForJobStep (applicants : List Applicant) (jobs : List Job)
    (apps : List Application) (aid jid : Nat) : List Application :=
  match applyForJob applicants jobs apps aid jid with
  | .ok l => l
  | .error _ => apps

/-- Number of stored applications for a given (applicant, job) pair. -/
def pairCount (apps : List Application) (a j : Nat) : Nat :=
  (apps.filter fun x => x.applicant == a && x.job == j).length

/-- The unique_applicant_job constraint of Application.Meta. -/
def atMostOnePerPair (apps : List Application) : Prop :=
  ∀ a j, pairCount apps a j ≤ 1

theorem pairCount_append (l1 l2 : List Application) (a j : Nat) :
    pairCount (l1 ++ l2) a j = pairCount l1 a j + pairCount l2 a j := by
  simp [pairCount, List.filter_append]

theorem applicationExists_iff_pairCount (apps : List Application) (a j : Nat) :
    applicationExists apps a j = true ↔ 1 ≤ pairCount apps a j := by
  constructor
  · intro h
    rcases List.any_eq_true.mp h with ⟨x, hx, hpx⟩
    have hmem : x ∈ apps.filter fun y => y.applicant == a && y.job == j :=
      List.mem_filter.mpr ⟨hx, hpx⟩
    have : 0 < (apps.filter fun y => y.applicant == a && y.job == j).length :=
      List.length_pos.mpr (List.ne_nil_of_mem hmem)
    exact this
  · intro h
    have hne : (apps.filter fun y => y.applicant == a && y.job == j) ≠ [] := by
      intro hnil
      rw [pairCount, hnil] at h
      exact absurd h (by simp)
    rcases List.exists_mem_of_ne_nil _ hne with ⟨x, hx⟩
    rcases List.mem_filter.mp hx with ⟨hxa, hxp⟩
    exact List.any_eq_true.mpr ⟨x, hxa, hxp⟩

theorem pairCount_singleton (a j a' j' : Nat) (st : String) :
    pairCount [⟨a, j, st⟩] a' j' = if a == a' && j == j' then 1 else 0 := by
  by_cases h : (a == a' && j == j') = true
  · simp [pairCount, List.filter, h]
  · simp only [pairCount, List.filter]
    rw [show ((⟨a, j, st⟩ : Application).applicant == a' &&
      (⟨a, j, st⟩ : Application).job == j') = false from by
        simpa using Bool.eq_false_iff.mpr h]
    simp [h]

theorem createApplicationStep_preserves (apps : List Application)
    (a j : Nat) (st : String) (h : atMostOnePerPair apps) :
    atMostOnePerPair (createApplicationStep apps a j st) := by
  intro a' j'
  unfold createApplicationStep createApplication
  by_cases hex : applicationExists apps a j = true
  · simp only [hex, if_true]
    exact h a' j'
  · rw [Bool.not_eq_true] at hex
    simp only [hex, Bool.false_eq_true, if_false]
    rw [pairCount_append, pairCount_singleton]
    by_cases hsame : (a == a' && j == j') = true
    · rw [if_pos hsame]
      obtain ⟨ha', hj'⟩ : a = a' ∧ j = j' := by simpa using hsame
      subst ha'; subst hj'
      have hz : pairCount apps a j = 0 := by
        by_contra hnz
        have h1 : 1 ≤ pairCount apps a j := Nat.one_le_iff_ne_zero.mpr hnz
        have := (applicationExists_iff_pairCount apps a j).mpr h1
        rw [hex] at this
        exact absurd this (by simp)
      omega
    · rw [if_neg hsame]
      have := h a' j'
      omega

theorem applyForJobStep_preserves (applicants : List Applicant)
    (jobs : List Job) (apps : List Application) (aid jid : Nat)
    (h : atMostOnePerPair apps) :
    atMostOnePerPair (applyForJobStep applicants jobs apps aid jid) := by
  intro a' j'
  unfold applyForJobStep applyForJob
  by_cases h1 : applicantIdExists applicants aid = false
  · simp only [h1, if_true]
    exact h a' j'
  · rw [if_neg h1]
    by_cases h2 : jobIdExists jobs jid = false
    · simp only [h2, if_true]
      exact h a' j'
    · rw [if_neg h2]
      by_cases hex : applicationExists apps aid jid = true
      · simp only [hex, if_true]
        exact h a' j'
      · rw [Bool.not_eq_true] at hex
        simp only [hex, Bool.false_eq_true, if_false]
        rw [pairCount_append, pairCount_singleton]
        by_cases hsame : (aid == a' && jid == j') = true
        · rw [if_pos hsame]
          obtain ⟨ha', hj'⟩ : aid = a' ∧ jid = j' := by simpa using hsame
          subst ha'; subst hj'
          have hz : pairCount apps aid jid = 0 := by
            by_contra hnz
            have hone : 1 ≤ pairCount apps aid jid := Nat.one_le_iff_ne_zero.mpr hnz
            have := (applicationExists_iff_pairCount apps aid jid).mpr hone
            rw [hex] at this
            exact absurd this (by simp)
          omega
        · rw [if_neg hsame]
          have := h a' j'
          omega

/-- Claim C1: for every (applicant, job) pair at most one Application
exists — both create paths preserve the at-most-one invariant — and a
second create attempt for a pair that already has an application fails
with the duplicate-application validation error and leaves the stored
application count for that pair unchanged, via the direct endpoint and
via the apply-for-job endpoint alike. -/
theorem C1_duplicate_application_rejected (applicants : List Applicant)
    (jobs : List Job) (apps : List Application) (a j : Nat) (st : String) :
    (atMostOnePerPair apps → atMostOnePerPair (createApplicationStep apps a j st)) ∧
    (atMostOnePerPair apps → atMostOnePerPair (applyForJobStep applicants jobs apps a j)) ∧
    (1 ≤ pairCount apps a j →
      createApplication apps a j st = .error dupMsgDirect ∧
      createApplicationStep apps a j st = apps ∧
      (applicantIdExists applicants a = true → jobIdExists jobs j = true →
        ∃ msg, applyForJob applicants jobs apps a j = .error msg) ∧
      applyForJobStep applicants jobs apps a j = apps ∧
      pairCount (createApplicationStep apps a j st) a j = pairCount apps a j ∧
      pairCount (applyForJobStep applicants jobs apps a j) a j = pairCount apps a j) := by
  refine ⟨createApplicationStep_preserves apps a j st,
    applyForJobStep_preserves applicants jobs apps a j, ?_⟩
  intro hdup
  have hex : applicationExists apps a j = true :=
    (applicationExists_iff_pairCount apps a j).mpr hdup
  have hcreate : createApplication apps a j st = .error dupMsgDirect := by
    unfold createApplication
    rw [if_pos hex]
  have hstep : createApplicationStep apps a j st = apps := by
    unfold createApplicationStep
    rw [hcreate]
  have happly : applyForJobStep applicants jobs apps a j = apps := by
    unfold applyForJobStep applyForJob
    by_cases h1 : applicantIdExists applicants a = false
    · rw [if_pos h1]
    · rw [if_neg h1]
      by_cases h2 : jobIdExists jobs j = false
      · rw [if_pos h2]
      · rw [if_neg h2]
        simp only [hex, if_true]
  refine ⟨hcreate, hstep, ?_, happly, by rw [hstep], by rw [happly]⟩
  intro hae hje
  unfold applyForJob
  rw [if_neg (by rw [hae]; simp), if_neg (by rw [hje]; simp)]
  simp only [hex, if_true]
  exact ⟨_, rfl⟩

/-- Witness for C1 at concrete inputs: one stored application for the
pair (1, 2); a repeated direct create and a repeated apply both fail and
leave the pair count at one. -/
theorem C1_duplicate_application_rejected_witness :
    createApplication [⟨1, 2, "applied"⟩] 1 2 "applied" = .error dupMsgDirect ∧
    pairCount (applyForJobStep [⟨1, "Ada", "ada@x.io", none⟩] [⟨2, "Dev"⟩]
      [⟨1, 2, "applied"⟩] 1 2) 1 2 = pairCount [⟨1, 2, "applied"⟩] 1 2 := by
  have h := C1_duplicate_application_rejected [⟨1, "Ada", "ada@x.io", none⟩]
    [⟨2, "Dev"⟩] [⟨1, 2, "applied"⟩] 1 2 "applied"
  have h3 := h.2.2 (by decide)
  exact ⟨h3.1, h3.2.2.2.2.2⟩

/-! ## Order pricing and nested update (orders/models.py,
orders/serializers.py) -/

/-- Foreign-key dereference item.product.price: products have unique ids
in the database, find? returns the row. -/
def productPrice (products : List Product) (pid : Nat) : Int :=
  match products.find? fun p => p.id == pid with
  | some p => p.price
  | none => 0

/-- OrderItem.subtotal: quantity × product price (current price). -/
def subtotal (products : List Product) (it : OrderItem) : Int :=
  it.quantity * productPrice products it.product

/-- Order.total_price: sum(item.subtotal for item in self.items.all()). -/
def total_price (products : List Product) (o : Order) : Int :=
  (o.items.map (subtotal products)).sum

/-- OrderSerializer.update: pop the optional item list, set the supplied
scalar fields, and if an item list was supplied delete all existing
items and recreate them from the new list (replace-all). -/
def orderUpdate (o : Order) (customer : Option Nat)
    (items : Option (List OrderItem)) : Order :=
  let o1 : Order :=
    match customer with
    | some c => { o with customer := c }
    | none => o
  match items with
  | none => o1
  | some newItems => { o1 with items := newItems }

/-- Claim C2: an order's total_price is the sum over its current items
of quantity × current product price, and after a replace-all update the
total is the sum over the new item list only. -/
theorem C2_total_price_is_item_sum (products : List Product) (o : Order)
    (c : Option Nat) (newItems : List OrderItem) :
    total_price products o =
      (o.items.map fun it => it.quantity * productPrice products it.product).sum ∧
    total_price products (orderUpdate o c (some newItems)) =
      (newItems.map fun it => it.quantity * productPrice products it.product).sum := by
  constructor
  · rfl
  · cases c <;> rfl

/-- Claim C9: an update whose payload has no item list leaves the
order's items untouched and changes only the supplied scalar fields. -/
theorem C9_update_without_items_is_frame (o : Order) (c : Option Nat) (c' : Nat) :
    (orderUpdate o c none).items = o.items ∧
    (orderUpdate o c none).id = o.id ∧
    (orderUpdate o c none).order_date = o.order_date ∧
    (orderUpdate o (some c') none).customer = c' ∧
    (orderUpdate o none none) = o := by
  cases c <;> simp [orderUpdate]

/-! ## Date filtering shared by order listing and analytics
(orders/views.py OrderViewSet.get_queryset, analytics/views.py) -/

/-- The two optional filters order_date__gte=from and order_date__lte=to
as a predicate on one order. -/
def orderMatches (f t : Option Int) (o : Order) : Bool :=
  (match f with
   | none => true
   | some x => decide (x ≤ o.order_date)) &&
  (match t with
   | none => true
   | some x => decide (o.order_date ≤ x))

/-- Sequential application of the two optional queryset filters, exactly
as sales_summary and OrderViewSet.get_queryset chain them. -/
def filterOrders (orders : List Order) (f t : Option Int) : List Order :=
  let os1 :=
    match f with
    | none => orders
    | some x => orders.filter fun o => decide (x ≤ o.order_date)
  match t with
  | none => os1
  | some x => os1.filter fun o => decide (o.order_date ≤ x)

/-- SQL SUM: NULL (none) on an empty row set. -/
def sqlSum (xs : List Int) : Option Int :=
  if xs.isEmpty then none else some xs.sum

/-- Coalesce(x, d): replace NULL by the default. -/
def coalesce {α : Type} (x : Option α) (d : α) : α := x.getD d

theorem coalesce_sqlSum (xs : List Int) : coalesce (sqlSum xs) 0 = xs.sum := by
  unfold coalesce sqlSum
  by_cases h : xs.isEmpty
  · rw [if_pos h]
    rw [List.isEmpty_iff] at h
    simp [h]
  · rw [if_neg h]
    rfl

theorem sum_flatMap_int {α : Type} (g : α → List Int) :
    ∀ l : List α, (l.flatMap g).sum = (l.map fun a => (g a).sum).sum := by
  intro l
  induction l with
  | nil => rfl
  | cons x xs ih => simp [List.flatMap_cons, List.sum_append, ih]

/-! ## Sales summary report (analytics/views.py sales_summary) -/

/-- Response record of the sales-summary endpoint. -/
structure SalesSummary where
  total_sales : Int
  total_orders : Nat
  total_customers : Nat
  total_products_sold : Int
  deriving Repr, DecidableEq

/-- sales_summary: filter orders by the optional bounds, then
total_sales = Coalesce(Sum(items.quantity × items.product.price), 0)
over the order × item join, total_orders = count of matched orders,
total_customers = distinct customers among matched orders, and
total_products_sold = Coalesce(Sum(quantity), 0) over the items whose
order is in the matched set. -/
def salesSummary (products : List Product) (orders : List Order)
    (f t : Option Int) : SalesSummary :=
  let matched := filterOrders orders f t
  { total_sales := coalesce (sqlSum (matched.flatMap fun o =>
      o.items.map fun it => it.quantity * productPrice products it.product)) 0
    total_orders := matched.length
    total_customers := (matched.map fun o => o.customer).dedup.length
    total_products_sold := coalesce (sqlSum (matched.flatMap fun o =>
      o.items.map fun it => it.quantity)) 0 }

/-- Claim C3: over the date-filtered orders, total_sales is the sum of
quantity × current price over all their items, total_orders counts the
matched orders, total_customers counts distinct customers (as a finite
set), total_products_sold sums the quantities, and an empty match yields
zero sums, never null. -/
theorem C3_sales_summary_correct (products : List Product)
    (orders : List Order) (f t : Option Int) :
    (salesSummary products orders f t).total_sales =
      ((filterOrders orders f t).map fun o => total_price products o).sum ∧
    (salesSummary products orders f t).total_orders =
      (filterOrders orders f t).length ∧
    (salesSummary products orders f t).total_customers =
      ((filterOrders orders f t).map fun o => o.customer).toFinset.card ∧
    (salesSummary products orders f t).total_products_sold =
      ((filterOrders orders f t).map fun o => (o.items.map fun it => it.quantity).sum).sum ∧
    (filterOrders orders f t = [] →
      (salesSummary products orders f t).total_sales = 0 ∧
      (salesSummary products orders f t).total_products_sold = 0) := by
  refine ⟨?_, rfl, ?_, ?_, ?_⟩
  · show coalesce (sqlSum ((filterOrders orders f t).flatMap fun o =>
      o.items.map fun it => it.quantity * productPrice products it.product)) 0 = _
    rw [coalesce_sqlSum, sum_flatMap_int]
    rfl
  · show ((filterOrders orders f t).map fun o => o.customer).dedup.length = _
    rw [List.card_toFinset]
  · show coalesce (sqlSum ((filterOrders orders f t).flatMap fun o =>
      o.items.map fun it => it.quantity)) 0 = _
    rw [coalesce_sqlSum, sum_flatMap_int]
  · intro hnil
    constructor
    · show coalesce (sqlSum ((filterOrders orders f t).flatMap fun o =>
        o.items.map fun it => it.quantity * productPrice products it.product)) 0 = 0
      rw [hnil]
      rfl
    · show coalesce (sqlSum ((filterOrders orders f t).flatMap fun o =>
        o.items.map fun it => it.quantity)) 0 = 0
      rw [hnil]
      rfl

/-- Witness for C3 at concrete inputs, including the empty-match case:
the source tests' example (2 × 1000.00 + 3 × 25.00) and (5 × 25.00 +
2 × 75.00) yields total_sales 2350, 2 orders, 2 customers, 12 units;
an out-of-range filter yields zero sums. -/
theorem C3_sales_summary_correct_witness :
    (salesSummary [⟨1, "Laptop", 1000⟩, ⟨2, "Mouse", 25⟩, ⟨3, "Hub", 75⟩]
      [⟨1, 1, 10, [⟨1, 2⟩, ⟨2, 3⟩]⟩, ⟨2, 2, 20, [⟨2, 5⟩, ⟨3, 2⟩]⟩]
      none none) = ⟨2350, 2, 2, 12⟩ ∧
    (salesSummary [⟨1, "Laptop", 1000⟩]
      [⟨1, 1, 10, [⟨1, 2⟩]⟩] (some 50) none).total_sales = 0 ∧
    ((salesSummary [⟨1, "Laptop", 1000⟩, ⟨2, "Mouse", 25⟩, ⟨3, "Hub", 75⟩]
      [⟨1, 1, 10, [⟨1, 2⟩, ⟨2, 3⟩]⟩, ⟨2, 2, 20, [⟨2, 5⟩, ⟨3, 2⟩]⟩]
      none none).total_sales =
      ((filterOrders [⟨1, 1, 10, [⟨1, 2⟩, ⟨2, 3⟩]⟩, ⟨2, 2, 20, [⟨2, 5⟩, ⟨3, 2⟩]⟩] none none).map
        fun o => total_price [⟨1, "Laptop", 1000⟩, ⟨2, "Mouse", 25⟩, ⟨3, "Hub", 75⟩] o).sum) := by
  refine ⟨by decide, ?_, ?_⟩
  · have h := C3_sales_summary_correct [⟨1, "Laptop", 1000⟩]
      [⟨1, 1, 10, [⟨1, 2⟩]⟩] (some 50) none
    exact (h.2.2.2.2 (by decide)).1
  · exact (C3_sales_summary_correct [⟨1, "Laptop", 1000⟩, ⟨2, "Mouse", 25⟩, ⟨3, "Hub", 75⟩]
      [⟨1, 1, 10, [⟨1, 2⟩, ⟨2, 3⟩]⟩, ⟨2, 2, 20, [⟨2, 5⟩, ⟨3, 2⟩]⟩] none none).1

/-! ## Top-customers and top-products reports (analytics/views.py
top_customers, top_products) -/

/-- order_by with a descending key: a sort placing larger metrics first
(tie order among equal metrics is implementation-defined in the source;
the model uses a stable sort). -/
def sortDescBy {α β : Type} [LinearOrder β] (metric : α → β) (l : List α) : List α :=
  List.insertionSort (fun x y => metric y ≤ metric x) l

theorem sortDescBy_sorted {α β : Type} [LinearOrder β] (metric : α → β) (l : List α) :
    List.Sorted (fun x y => metric y ≤ metric x) (sortDescBy metric l) := by
  haveI : IsTotal α fun x y => metric y ≤ metric x :=
    ⟨fun a b => le_total (metric b) (metric a)⟩
  haveI : IsTrans α fun x y => metric y ≤ metric x :=
    ⟨fun a b c h1 h2 => le_trans h2 h1⟩
  exact List.sorted_insertionSort _ l

theorem sortDescBy_perm {α β : Type} [LinearOrder β] (metric : α → β) (l : List α) :
    List.Perm (sortDescBy metric l) l :=
  List.perm_insertionSort _ l

theorem mem_take_or_length_eq {α : Type} (l : List α) (n : Nat) (x : α)
    (hx : x ∈ l) : x ∈ l.take n ∨ (l.take n).length = n := by
  by_cases h : x ∈ l.take n
  · exact Or.inl h
  · right
    have hxd : x ∈ l.drop n := by
      have hsplit : l.take n ++ l.drop n = l := List.take_append_drop n l
      rw [← hsplit] at hx
      rcases List.mem_append.mp hx with h1 | h2
      · exact absurd h1 h
      · exact h2
    have hlt : n < l.length := by
      by_contra hge
      push_neg at hge
      rw [List.drop_eq_nil_iff.mpr hge] at hxd
      exact absurd hxd (List.not_mem_nil x)
    rw [List.length_take]
    omega

theorem pairwise_take_excluded {α : Type} (r : α → α → Prop) (l : List α)
    (n : Nat) (hs : List.Pairwise r l) (x : α) (hx : x ∈ l)
    (hnx : x ∉ l.take n) : ∀ y ∈ l.take n, r y x := by
  have hxd : x ∈ l.drop n := by
    have hsplit : l.take n ++ l.drop n = l := List.take_append_drop n l
    rw [← hsplit] at hx
    rcases List.mem_append.mp hx with h1 | h2
    · exact absurd h1 hnx
    · exact h2
  have hs2 : List.Pairwise r (l.take n ++ l.drop n) := by
    rw [List.take_append_drop]
    exact hs
  intro y hy
  exact (List.pairwise_append.mp hs2).2.2 y hy x hxd

/-- Response entry of the top-customers endpoint. -/
structure TopCustomerEntry where
  id : Nat
  name : String
  email : String
  total_spent : Int
  deriving Repr, DecidableEq

/-- The orders of one customer that satisfy the supplied date bounds:
the join rows produced by orders__order_date__gte / __lte conditions. -/
def customerMatchedOrders (orders : List Order) (f t : Option Int)
    (cid : Nat) : List Order :=
  orders.filter fun o => o.customer == cid && orderMatches f t o

/-- The total_spent Coalesce(Sum(orders__items__quantity ×
orders__items__product__price), 0) annotation, aggregated over the
(filter-restricted) join rows of one customer. -/
def customerTotalSpent (products : List Product) (orders : List Order)
    (f t : Option Int) (cid : Nat) : Int :=
  coalesce (sqlSum ((customerMatchedOrders orders f t cid).flatMap fun o =>
    o.items.map fun it => it.quantity * productPrice products it.product)) 0

/-- One formatted entry of the top-customers response. -/
def annotateCustomer (products : List Product) (orders : List Order)
    (f t : Option Int) (c : Customer) : TopCustomerEntry :=
  ⟨c.id, c.name, c.email, customerTotalSpent products orders f t c.id⟩

/-- customers.filter(**order_filter): when a date bound is supplied this
keeps only customers with at least one matching order; with neither
bound the filter dict is empty and every customer is kept. -/
def keptCustomers (customers : List Customer) (orders : List Order)
    (f t : Option Int) : List Customer :=
  if f.isNone && t.isNone then customers
  else customers.filter fun c => !(customerMatchedOrders orders f t c.id).isEmpty

/-- top_customers: filter customers, annotate each with total_spent,
order descending by it, and take the first 5. -/
def topCustomers (products : List Product) (customers : List Customer)
    (orders : List Order) (f t : Option Int) : List TopCustomerEntry :=
  (sortDescBy (fun e => e.total_spent)
    ((keptCustomers customers orders f t).map
      (annotateCustomer products orders f t))).take 5

/-- Response entry of the top-products endpoint. -/
structure TopProductEntry where
  id : Nat
  name : String
  price : Int
  total_quantity_sold : Int
  total_revenue : Int
  deriving Repr, DecidableEq

/-- The order items for one product whose order satisfies the supplied
bounds: the join rows of orderitem__order__order_date__gte / __lte. -/
def productMatchedItems (orders : List Order) (f t : Option Int)
    (pid : Nat) : List OrderItem :=
  (orders.filter fun o => orderMatches f t o).flatMap fun o =>
    o.items.filter fun it => it.product == pid

/-- One formatted entry of the top-products response, with the
total_quantity_sold and total_revenue annotations. -/
def annotateProduct (orders : List Order) (f t : Option Int)
    (p : Product) : TopProductEntry :=
  ⟨p.id, p.name, p.price,
    coalesce (sqlSum ((productMatchedItems orders f t p.id).map fun it =>
      it.quantity)) 0,
    coalesce (sqlSum ((productMatchedItems orders f t p.id).map fun it =>
      it.quantity * p.price)) 0⟩

/-- products.filter(**order_filter) of top_products. -/
def keptProducts (products : List Product) (orders : List Order)
    (f t : Option Int) : List Product :=
  if f.isNone && t.isNone then products
  else products.filter fun p => !(productMatchedItems orders f t p.id).isEmpty

/-- top_products: same shape as top_customers, ranked by quantity sold. -/
def topProducts (products : List Product) (orders : List Order)
    (f t : Option Int) : List TopProductEntry :=
  (sortDescBy (fun e => e.total_quantity_sold)
    ((keptProducts products orders f t).map (annotateProduct orders f t))).take 5

/-- Counterexample to C4 as stated: with no date filter supplied, the
query filters customers with an empty condition dict, so a customer with
no orders at all still receives an entry (with total_spent 0), although
no order of theirs matches the (vacuous) date filter. -/
theorem C4_counterexample :
    ¬ (∀ e ∈ topCustomers [] [⟨7, "Noor", "noor@x.io"⟩] [] none none,
        ∃ o ∈ ([] : List Order), o.customer = e.id ∧
          orderMatches none none o = true) := by
  decide

/-- Counterexample to C5 as stated: two customers with equal total_spent
(here two customers with no orders and no date filter, both spending 0)
both appear, so the list is not sorted strictly descending. -/
theorem C5_counterexample :
    ¬ List.Pairwise (fun e1 e2 : TopCustomerEntry => e2.total_spent < e1.total_spent)
      (topCustomers [] [⟨1, "A", "a@x.io"⟩, ⟨2, "B", "b@x.io"⟩] [] none none) := by
  decide

theorem topCustomers_mem {products : List Product} {customers : List Customer}
    {orders : List Order} {f t : Option Int} {e : TopCustomerEntry}
    (he : e ∈ topCustomers products customers orders f t) :
    ∃ c, c ∈ keptCustomers customers orders f t ∧
      annotateCustomer products orders f t c = e := by
  have h1 : e ∈ sortDescBy (fun e => e.total_spent)
      ((keptCustomers customers orders f t).map
        (annotateCustomer products orders f t)) :=
    List.mem_of_mem_take he
  have h2 := (sortDescBy_perm _ _).mem_iff.mp h1
  rcases List.mem_map.mp h2 with ⟨c, hck, hce⟩
  exact ⟨c, hck, hce⟩

theorem topProducts_mem {products : List Product} {orders : List Order}
    {f t : Option Int} {e : TopProductEntry}
    (he : e ∈ topProducts products orders f t) :
    ∃ p, p ∈ keptProducts products orders f t ∧
      annotateProduct orders f t p = e := by
  have h1 : e ∈ sortDescBy (fun e => e.total_quantity_sold)
      ((keptProducts products orders f t).map (annotateProduct orders f t)) :=
    List.mem_of_mem_take he
  have h2 := (sortDescBy_perm _ _).mem_iff.mp h1
  rcases List.mem_map.mp h2 with ⟨p, hpk, hpe⟩
  exact ⟨p, hpk, hpe⟩

theorem mem_keptCustomers {customers : List Customer} {orders : List Order}
    {f t : Option Int} {c : Customer} (hc : c ∈ customers)
    (hcond : (f = none ∧ t = none) ∨ customerMatchedOrders orders f t c.id ≠ []) :
    c ∈ keptCustomers customers orders f t := by
  unfold keptCustomers
  by_cases hft : (f.isNone && t.isNone) = true
  · rw [if_pos hft]
    exact hc
  · rw [if_neg hft]
    rcases hcond with ⟨hf, ht⟩ | hne
    · exact absurd (by simp [hf, ht]) hft
    · refine List.mem_filter.mpr ⟨hc, ?_⟩
      have hfe : (customerMatchedOrders orders f t c.id).isEmpty = false := by
        rw [← Bool.not_eq_true, List.isEmpty_iff]
        exact hne
      rw [hfe]
      rfl

theorem mem_keptProducts {products : List Product} {orders : List Order}
    {f t : Option Int} {p : Product} (hp : p ∈ products)
    (hcond : (f = none ∧ t = none) ∨ productMatchedItems orders f t p.id ≠ []) :
    p ∈ keptProducts products orders f t := by
  unfold keptProducts
  by_cases hft : (f.isNone && t.isNone) = true
  · rw [if_pos hft]
    exact hp
  · rw [if_neg hft]
    rcases hcond with ⟨hf, ht⟩ | hne
    · exact absurd (by simp [hf, ht]) hft
    · refine List.mem_filter.mpr ⟨hp, ?_⟩
      have hfe : (productMatchedItems orders f t p.id).isEmpty = false := by
        rw [← Bool.not_eq_true, List.isEmpty_iff]
        exact hne
      rw [hfe]
      rfl

theorem keptCustomers_matched {customers : List Customer} {orders : List Order}
    {f t : Option Int} {c : Customer}
    (hc : c ∈ keptCustomers customers orders f t)
    (hft : ¬ (f = none ∧ t = none)) :
    customerMatchedOrders orders f t c.id ≠ [] := by
  unfold keptCustomers at hc
  have hcond : (f.isNone && t.isNone) = false := by
    cases f <;> cases t <;> simp_all
  rw [hcond] at hc
  simp only [Bool.false_eq_true, if_false] at hc
  have h2 := (List.mem_filter.mp hc).2
  intro hnil
  rw [hnil] at h2
  exact absurd h2 (by simp)

theorem matched_order_exists {orders : List Order} {f t : Option Int} {cid : Nat}
    (h : customerMatchedOrders orders f t cid ≠ []) :
    ∃ o ∈ orders, o.customer = cid ∧ orderMatches f t o = true := by
  rcases List.exists_mem_of_ne_nil _ h with ⟨o, ho⟩
  rcases List.mem_filter.mp ho with ⟨ho1, ho2⟩
  refine ⟨o, ho1, ?_⟩
  simpa using ho2

theorem customerTotalSpent_eq (products : List Product) (orders : List Order)
    (f t : Option Int) (cid : Nat) :
    customerTotalSpent products orders f t cid =
      ((customerMatchedOrders orders f t cid).map fun o =>
        total_price products o).sum := by
  unfold customerTotalSpent
  rw [coalesce_sqlSum, sum_flatMap_int]
  rfl

/-- Claim C4, amended.  The source filters customers with the (possibly
empty) order_filter dict, so: every listed entry has a matching order
when at least one date bound was supplied (with no bound every customer
is kept, including customers with no orders, whose total_spent is 0);
every entry's total_spent is the sum of quantity × current price over
that customer's items in matched orders; the list is sorted descending
by total_spent; it has at most 5 entries; and every kept customer either
appears or the list is full at 5 entries. -/
theorem C4_amended_top_customers (products : List Product)
    (customers : List Customer) (orders : List Order) (f t : Option Int) :
    (∀ e ∈ topCustomers products customers orders f t,
      ¬ (f = none ∧ t = none) →
      ∃ o ∈ orders, o.customer = e.id ∧ orderMatches f t o = true) ∧
    (∀ e ∈ topCustomers products customers orders f t,
      e.total_spent =
        ((customerMatchedOrders orders f t e.id).map fun o =>
          total_price products o).sum) ∧
    List.Sorted (fun e1 e2 : TopCustomerEntry => e2.total_spent ≤ e1.total_spent)
      (topCustomers products customers orders f t) ∧
    (topCustomers products customers orders f t).length ≤ 5 ∧
    (∀ c ∈ customers,
      ((f = none ∧ t = none) ∨ customerMatchedOrders orders f t c.id ≠ []) →
      annotateCustomer products orders f t c ∈
        topCustomers products customers orders f t ∨
      (topCustomers products customers orders f t).length = 5) := by
  refine ⟨?_, ?_, ?_, ?_, ?_⟩
  · intro e he hft
    rcases topCustomers_mem he with ⟨c, hck, hce⟩
    have hm := keptCustomers_matched hck hft
    have hid : e.id = c.id := by
      rw [← hce]
      rfl
    rw [hid]
    exact matched_order_exists hm
  · intro e he
    rcases topCustomers_mem he with ⟨c, hck, hce⟩
    have hid : e.id = c.id := by
      rw [← hce]
      rfl
    have hts : e.total_spent = customerTotalSpent products orders f t c.id := by
      rw [← hce]
      rfl
    rw [hts, hid, customerTotalSpent_eq]
  · exact List.Pairwise.sublist (List.take_sublist 5 _) (sortDescBy_sorted _ _)
  · exact List.length_take_le 5 _
  · intro c hc hcond
    have hck := mem_keptCustomers hc hcond
    have hann : annotateCustomer products orders f t c ∈
        (keptCustomers customers orders f t).map
          (annotateCustomer products orders f t) :=
      List.mem_map.mpr ⟨c, hck, rfl⟩
    have hsrt := (sortDescBy_perm (fun e : TopCustomerEntry => e.total_spent)
      _).mem_iff.mpr hann
    exact mem_take_or_length_eq _ 5 _ hsrt

/-- Witness for C4 (amended) at concrete inputs: one customer with one
in-range order; the only entry has that customer's id and a matching
order exists. -/
theorem C4_amended_top_customers_witness :
    (∃ o ∈ [(⟨1, 1, 5, []⟩ : Order)],
      o.customer = (⟨1, "A", "a@x.io", 0⟩ : TopCustomerEntry).id ∧
      orderMatches (some 0) none o = true) ∧
    (annotateCustomer [] [⟨1, 1, 5, []⟩] (some 0) none ⟨1, "A", "a@x.io"⟩ ∈
        topCustomers [] [⟨1, "A", "a@x.io"⟩] [⟨1, 1, 5, []⟩] (some 0) none ∨
      (topCustomers [] [⟨1, "A", "a@x.io"⟩] [⟨1, 1, 5, []⟩] (some 0) none).length = 5) := by
  have h := C4_amended_top_customers [] [⟨1, "A", "a@x.io"⟩] [⟨1, 1, 5, []⟩] (some 0) none
  constructor
  · exact h.1 ⟨1, "A", "a@x.io", 0⟩ (by decide) (by decide)
  · exact h.2.2.2.2 ⟨1, "A", "a@x.io"⟩ (by decide) (Or.inr (by decide))

/-- Claim C5, amended.  Both top-N lists are sorted descending (weakly:
exact ties are adjacent, strict descent fails on ties), contain at most
5 entries, and any kept entity that does not appear has its ranking
metric less than or equal to that of every listed entry. -/
theorem C5_amended_topn_truncation (products : List Product)
    (customers : List Customer) (orders : List Order) (f t : Option Int) :
    List.Sorted (fun e1 e2 : TopCustomerEntry => e2.total_spent ≤ e1.total_spent)
      (topCustomers products customers orders f t) ∧
    (topCustomers products customers orders f t).length ≤ 5 ∧
    List.Sorted (fun e1 e2 : TopProductEntry =>
      e2.total_quantity_sold ≤ e1.total_quantity_sold)
      (topProducts products orders f t) ∧
    (topProducts products orders f t).length ≤ 5 ∧
    (∀ c ∈ customers,
      ((f = none ∧ t = none) ∨ customerMatchedOrders orders f t c.id ≠ []) →
      annotateCustomer products orders f t c ∉
        topCustomers products customers orders f t →
      ∀ e ∈ topCustomers products customers orders f t,
        (annotateCustomer products orders f t c).total_spent ≤ e.total_spent) ∧
    (∀ p ∈ products,
      ((f = none ∧ t = none) ∨ productMatchedItems orders f t p.id ≠ []) →
      annotateProduct orders f t p ∉ topProducts products orders f t →
      ∀ e ∈ topProducts products orders f t,
        (annotateProduct orders f t p).total_quantity_sold ≤
          e.total_quantity_sold) := by
  refine ⟨List.Pairwise.sublist (List.take_sublist 5 _) (sortDescBy_sorted _ _),
    List.length_take_le 5 _,
    List.Pairwise.sublist (List.take_sublist 5 _) (sortDescBy_sorted _ _),
    List.length_take_le 5 _, ?_, ?_⟩
  · intro c hc hcond hnot e he
    have hck := mem_keptCustomers hc hcond
    have hann : annotateCustomer products orders f t c ∈
        (keptCustomers customers orders f t).map
          (annotateCustomer products orders f t) :=
      List.mem_map.mpr ⟨c, hck, rfl⟩
    have hsrt := (sortDescBy_perm (fun e : TopCustomerEntry => e.total_spent)
      _).mem_iff.mpr hann
    exact pairwise_take_excluded _ _ 5 (sortDescBy_sorted _ _) _ hsrt hnot e he
  · intro p hp hcond hnot e he
    have hpk := mem_keptProducts hp hcond
    have hann : annotateProduct orders f t p ∈
        (keptProducts products orders f t).map (annotateProduct orders f t) :=
      List.mem_map.mpr ⟨p, hpk, rfl⟩
    have hsrt := (sortDescBy_perm
      (fun e : TopProductEntry => e.total_quantity_sold) _).mem_iff.mpr hann
    exact pairwise_take_excluded _ _ 5 (sortDescBy_sorted _ _) _ hsrt hnot e he

/-- Witness for C5 (amended) at concrete inputs: six customers with no
orders and no date filter; the one left out of the 5-entry list has
total_spent less than or equal to every listed total_spent. -/
theorem C5_amended_topn_truncation_witness :
    ∀ e ∈ topCustomers [] [⟨1, "A", "a@x.io"⟩, ⟨2, "B", "b@x.io"⟩,
        ⟨3, "C", "c@x.io"⟩, ⟨4, "D", "d@x.io"⟩, ⟨5, "E", "e@x.io"⟩,
        ⟨6, "F", "f@x.io"⟩] [] none none,
      (annotateCustomer [] [] none none ⟨6, "F", "f@x.io"⟩).total_spent ≤
        e.total_spent := by
  have h := (C5_amended_topn_truncation [] [⟨1, "A", "a@x.io"⟩, ⟨2, "B", "b@x.io"⟩,
    ⟨3, "C", "c@x.io"⟩, ⟨4, "D", "d@x.io"⟩, ⟨5, "E", "e@x.io"⟩,
    ⟨6, "F", "f@x.io"⟩] [] none none).2.2.2.2.1
  exact h ⟨6, "F", "f@x.io"⟩ (by decide) (Or.inl ⟨rfl, rfl⟩) (by decide)

/-! ## List endpoints with query-string filters (jobs/views.py,
applications/views.py, orders/views.py, analytics/views.py).
Query parameters arrive as Option String (request.query_params.get
returns None when absent); the source guards every filter with Python
truthiness, under which the empty string counts as absent.  The id and
date parsing the ORM applies to a non-empty parameter string is kept
abstract as a function argument. -/

/-- title__icontains: case-insensitive substring test. -/
def icontains (hay needle : String) : Bool :=
  decide (1 < ((hay.toLower).splitOn (needle.toLower)).length)

/-- JobViewSet.get_queryset: optional title substring filter. -/
def jobsGetQueryset (jobs : List Job) (titleQ : Option String) : List Job :=
  match titleQ with
  | none => jobs
  | some s => if s = "" then jobs else jobs.filter fun j => icontains j.title s

/-- ApplicationViewSet.get_queryset: optional status, applicant and job
filters, applied in sequence. -/
def applicationsGetQueryset (parseId : String → Nat) (apps : List Application)
    (statusQ applicantQ jobQ : Option String) : List Application :=
  let qs1 :=
    match statusQ with
    | none => apps
    | some s => if s = "" then apps else apps.filter fun x => x.status == s
  let qs2 :=
    match applicantQ with
    | none => qs1
    | some s => if s = "" then qs1 else qs1.filter fun x => x.applicant == parseId s
  match jobQ with
  | none => qs2
  | some s => if s = "" then qs2 else qs2.filter fun x => x.job == parseId s

/-- OrderViewSet.get_queryset: optional customer, from and to filters,
applied in sequence. -/
def ordersGetQueryset (parseId : String → Nat) (parseDate : String → Int)
    (orders : List Order) (customerQ fromQ toQ : Option String) : List Order :=
  let qs1 :=
    match customerQ with
    | none => orders
    | some s => if s = "" then orders else orders.filter fun o => o.customer == parseId s
  let qs2 :=
    match fromQ with
    | none => qs1
    | some s => if s = "" then qs1
      else qs1.filter fun o => decide (parseDate s ≤ o.order_date)
  match toQ with
  | none => qs2
  | some s => if s = "" then qs2
    else qs2.filter fun o => decide (o.order_date ≤ parseDate s)

/-- The truthiness guard the analytics views put on a raw date
parameter before filtering with it. -/
def optParam (parseDate : String → Int) : Option String → Option Int
  | none => none
  | some s => if s = "" then none else some (parseDate s)

/-- sales_summary at the query-string level. -/
def salesSummaryView (parseDate : String → Int) (products : List Product)
    (orders : List Order) (fromQ toQ : Option String) : SalesSummary :=
  salesSummary products orders (optParam parseDate fromQ) (optParam parseDate toQ)

/-- Claim C6: date-range bounds are inclusive on both ends, a single
bound leaves the other side unconstrained, and omitting both bounds
makes the order listing and all three analytics aggregates range over
all orders. -/
theorem C6_date_filter_inclusive_unbounded (products : List Product)
    (customers : List Customer) (orders : List Order) (o : Order)
    (fb tb : Int) (fo t_o : Option Int) (cid pid : Nat)
    (parseId : String → Nat) (parseDate : String → Int) :
    (orderMatches (some fb) none o = true ↔ fb ≤ o.order_date) ∧
    (orderMatches none (some tb) o = true ↔ o.order_date ≤ tb) ∧
    (orderMatches (some fb) (some tb) o = true ↔
      fb ≤ o.order_date ∧ o.order_date ≤ tb) ∧
    (orderMatches none none o = true) ∧
    (o.order_date = fb → orderMatches (some fb) none o = true) ∧
    (o.order_date = tb → orderMatches none (some tb) o = true) ∧
    (filterOrders orders fo t_o = orders.filter fun x => orderMatches fo t_o x) ∧
    (filterOrders orders none none = orders) ∧
    (ordersGetQueryset parseId parseDate orders none none none = orders) ∧
    (customerMatchedOrders orders none none cid =
      orders.filter fun x => x.customer == cid) ∧
    (productMatchedItems orders none none pid =
      orders.flatMap fun x => x.items.filter fun it => it.product == pid) ∧
    (keptCustomers customers orders none none = customers) ∧
    (keptProducts products orders none none = products) ∧
    ((salesSummary products orders none none).total_orders = orders.length) := by
  refine ⟨by simp [orderMatches], by simp [orderMatches], by simp [orderMatches],
    by simp [orderMatches], ?_, ?_, ?_, rfl, rfl, ?_, ?_, rfl, rfl, rfl⟩
  · intro h
    simp [orderMatches, h]
  · intro h
    simp [orderMatches, h]
  · cases fo <;> cases t_o <;>
      simp [filterOrders, orderMatches, Bool.and_comm]
  · simp [customerMatchedOrders, orderMatches]
  · simp [productMatchedItems, orderMatches]

/-- Witness for C6 at concrete inputs: an order timestamped exactly at
the from bound (and at the to bound) is matched; an unbounded filter
returns the stored list unchanged. -/
theorem C6_date_filter_inclusive_unbounded_witness :
    orderMatches (some 7) none ⟨1, 1, 7, []⟩ = true ∧
    orderMatches none (some 7) ⟨1, 1, 7, []⟩ = true ∧
    (orderMatches (some 3) (some 9) ⟨1, 1, 3, []⟩ = true ↔
      (3 : Int) ≤ 3 ∧ (3 : Int) ≤ 9) ∧
    filterOrders [⟨1, 1, 7, []⟩] none none = [⟨1, 1, 7, []⟩] := by
  have h := C6_date_filter_inclusive_unbounded [] [] [⟨1, 1, 7, []⟩]
    ⟨1, 1, 7, []⟩ 7 7 none none 0 0 (fun _ => 0) (fun _ => 0)
  have h3 := (C6_date_filter_inclusive_unbounded [] [] [] ⟨1, 1, 3, []⟩
    3 9 none none 0 0 (fun _ => 0) (fun _ => 0)).2.2.1
  exact ⟨h.2.2.2.2.1 rfl, h.2.2.2.2.2.1 rfl, h3, h.2.2.2.2.2.2.2.1⟩

/-- Claim C10: every optional query-string filter treats an
empty-string value exactly like an omitted parameter, because each
filter sits behind a Python truthiness check. -/
theorem C10_empty_param_equals_omitted (jobs : List Job)
    (apps : List Application) (orders : List Order) (products : List Product)
    (parseId : String → Nat) (parseDate : String → Int)
    (sQ aQ jQ cQ fQ tQ : Option String) :
    jobsGetQueryset jobs (some "") = jobsGetQueryset jobs none ∧
    applicationsGetQueryset parseId apps (some "") aQ jQ =
      applicationsGetQueryset parseId apps none aQ jQ ∧
    applicationsGetQueryset parseId apps sQ (some "") jQ =
      applicationsGetQueryset parseId apps sQ none jQ ∧
    applicationsGetQueryset parseId apps sQ aQ (some "") =
      applicationsGetQueryset parseId apps sQ aQ none ∧
    ordersGetQueryset parseId parseDate orders (some "") fQ tQ =
      ordersGetQueryset parseId parseDate orders none fQ tQ ∧
    ordersGetQueryset parseId parseDate orders cQ (some "") tQ =
      ordersGetQueryset parseId parseDate orders cQ none tQ ∧
    ordersGetQueryset parseId parseDate orders cQ fQ (some "") =
      ordersGetQueryset parseId parseDate orders cQ fQ none ∧
    salesSummaryView parseDate products orders (some "") tQ =
      salesSummaryView parseDate products orders none tQ ∧
    salesSummaryView parseDate products orders fQ (some "") =
      salesSummaryView parseDate products orders fQ none := by
  refine ⟨rfl, rfl, ?_, ?_, rfl, ?_, ?_, rfl, rfl⟩
  · simp [applicationsGetQueryset]
  · simp [applicationsGetQueryset]
  · simp [ordersGetQueryset]
  · simp [ordersGetQueryset]

/-! ## Applicant and customer field validation
(applicants/serializers.py, customers/serializers.py).
Python str operations act on character sequences; they are embedded on
the character list of the string.  Char.toLower and Char.isDigit match
Python semantics on the ASCII fragment the validators are about. -/

/-- Python value.lower(). -/
def pyLower (s : String) : String :=
  String.mk (s.data.map Char.toLower)

/-- Python value.replace(c, ""): removes all occurrences of the
single-character pattern. -/
def removeChar (c : Char) (s : String) : String :=
  String.mk (s.data.filter fun d => d != c)

/-- The cleaning chain of ApplicantSerializer.validate_phone:
value.replace(' ', '').replace('-', '').replace('(', '')
.replace(')', '').replace('+', ''). -/
def cleanPhone (s : String) : String :=
  removeChar '+' (removeChar ')' (removeChar '(' (removeChar '-' (removeChar ' ' s))))

/-- Python cleaned.isdigit(): true iff the string is non-empty and all
its characters are digits. -/
def pyIsDigit (s : String) : Bool :=
  !s.data.isEmpty && s.data.all Char.isDigit

/-- Error raised by ApplicantSerializer.validate_phone. -/
def phoneErrMsg : String :=
  "Phone number should only contain digits and +, -, (, ) characters."

/-- ApplicantSerializer.validate_phone: falsy values (absent or empty)
pass through unchanged; otherwise the cleaned string must satisfy
isdigit, and the value is returned unchanged. -/
def applicantValidatePhone (v : Option String) : Except String (Option String) :=
  match v with
  | none => .ok none
  | some s =>
    if s = "" then .ok (some s)
    else if pyIsDigit (cleanPhone s) then .ok (some s)
    else .error phoneErrMsg

/-- ApplicantSerializer.validate_email: return value.lower(). -/
def applicantValidateEmail (email : String) : String := pyLower email

/-- Applicant write path: run the two field validators, then persist. -/
def applicantCreate (aid : Nat) (name email : String) (phone : Option String) :
    Except String Applicant :=
  match applicantValidatePhone phone with
  | .error e => .error e
  | .ok ph => .ok ⟨aid, name, applicantValidateEmail email, ph⟩

/-- Customer write path: CustomerSerializer declares no transform for
the email field, so the ModelSerializer persists the submitted value
as-is. -/
def customerCreate (cid : Nat) (name email : String) : Customer :=
  ⟨cid, name, email⟩

/-- Counterexample to C7 as stated: a Customer write with a mixed-case
email persists it unchanged, not lowercased — only the Applicant
serializer lowercases. -/
theorem C7_counterexample :
    (customerCreate 1 "Alice" "Alice@Example.com").email ≠ "alice@example.com" := by
  decide

/-- Claim C7, amended: an accepted Applicant write persists the
lowercase form of the submitted email, while a Customer write persists
the submitted email unchanged. -/
theorem C7_amended_email_lowercased (aid cid : Nat) (name email : String)
    (phone : Option String) (a : Applicant)
    (h : applicantCreate aid name email phone = .ok a) :
    a.email = pyLower email ∧ (customerCreate cid name email).email = email := by
  refine ⟨?_, rfl⟩
  unfold applicantCreate at h
  cases hv : applicantValidatePhone phone with
  | error e =>
    rw [hv] at h
    exact absurd h (by simp)
  | ok ph =>
    rw [hv] at h
    have h2 : (⟨aid, name, applicantValidateEmail email, ph⟩ : Applicant) = a := by
      simpa using h
    rw [← h2]
    rfl

/-- Witness for C7 (amended) at a concrete input. -/
theorem C7_amended_email_lowercased_witness :
    (⟨1, "Ada", "ada@x.io", none⟩ : Applicant).email = pyLower "Ada@X.io" ∧
    (customerCreate 2 "Ada" "Ada@X.io").email = "Ada@X.io" :=
  C7_amended_email_lowercased 1 2 "Ada" "Ada@X.io" none
    ⟨1, "Ada", "ada@x.io", none⟩ rfl

/-- Counterexample to C8 as stated: the non-empty phone value "+"
cleans to the empty string, whose characters (vacuously) are all
digits, yet the code rejects it because Python isdigit is false on the
empty string. -/
theorem C8_counterexample :
    ¬ (∀ s : String, s ≠ "" →
        ((applicantValidatePhone (some s)).isOk = true ↔
          (cleanPhone s).data.all Char.isDigit = true)) := by
  intro h
  have h2 := (h "+" (by decide)).mpr (by decide)
  rw [show applicantValidatePhone (some "+") = .error phoneErrMsg from rfl] at h2
  exact absurd h2 (by decide)

/-- Claim C8, amended: a non-empty phone validates successfully (and
unchanged) iff the string obtained by removing spaces, hyphens,
parentheses and plus signs is non-empty and consists of digits only
(Python isdigit is false on the empty remainder); otherwise the write
fails with the ValidationError naming the phone rule.  Absent and empty
values are accepted unchanged. -/
theorem C8_amended_phone_validation (s : String) (h : s ≠ "") :
    (applicantValidatePhone (some s) = .ok (some s) ↔
      pyIsDigit (cleanPhone s) = true) ∧
    (pyIsDigit (cleanPhone s) = true ↔
      ¬(cleanPhone s).data.isEmpty = true ∧
        (cleanPhone s).data.all Char.isDigit = true) ∧
    (pyIsDigit (cleanPhone s) = false →
      applicantValidatePhone (some s) = .error phoneErrMsg) ∧
    applicantValidatePhone none = .ok none ∧
    applicantValidatePhone (some "") = .ok (some "") := by
  have hstep : applicantValidatePhone (some s) =
      if s = "" then .ok (some s)
      else if pyIsDigit (cleanPhone s) then .ok (some s)
      else .error phoneErrMsg := rfl
  refine ⟨?_, ?_, ?_, rfl, rfl⟩
  · rw [hstep, if_neg h]
    by_cases hd : pyIsDigit (cleanPhone s) = true
    · rw [if_pos hd]
      simp [hd]
    · rw [if_neg hd]
      simp [hd]
  · unfold pyIsDigit
    constructor
    · intro hd
      rcases Bool.and_eq_true_iff.mp hd with ⟨h1, h2⟩
      exact ⟨by simpa using h1, h2⟩
    · intro ⟨h1, h2⟩
      refine Bool.and_eq_true_iff.mpr ⟨by simpa using h1, h2⟩
  · intro hd
    rw [hstep, if_neg h, if_neg (by rw [hd]; simp)]

/-- Witness for C8 (amended) at concrete inputs: "+1 (23) 4-5" cleans
to "12345" and validates; the rule applied at the concrete phone
string. -/
theorem C8_amended_phone_validation_witness :
    (applicantValidatePhone (some "+1 (23) 4-5") = .ok (some "+1 (23) 4-5") ↔
      pyIsDigit (cleanPhone "+1 (23) 4-5") = true) ∧
    applicantValidatePhone none = .ok none :=
  have h := C8_amended_phone_validation "+1 (23) 4-5" (by decide)
  ⟨h.1, h.2.2.2.1⟩

end CDjango
